import Mathlib

/-!
Verification development for a small fork-per-connection TCP echo server
(`server.c`) and its interactive client (`client.c`).  Bytes are modelled as
`Nat` (values 0..255), C strings as `List Nat` where the end of the list plays
the role of the terminating NUL byte; an explicit `0` element models an
embedded NUL.  I/O is modelled by event oracles: each call to `read`/`write`/
`fork`/`waitpid` consumes the next outcome from a list.
-/

namespace TcpEcho

/-- Whitespace set used by both classifiers: space, tab, carriage return,
newline (`' '`, `'\t'`, `'\r'`, `'\n'`). -/
def isWs (c : Nat) : Bool :=
  c == 32 || c == 9 || c == 13 || c == 10

/-- Leading-whitespace skip loop shared by both `is_quit_cmd` implementations
(`while (*s == ' ' || *s == '\t' || *s == '\r' || *s == '\n') s++;`). -/
def stripWs : List Nat → List Nat
  | [] => []
  | c :: rest => if isWs c then stripWs rest else c :: rest

/-- C `tolower` in the default locale restricted to unsigned-char inputs:
folds `'A'..'Z'` (65..90) to `'a'..'z'`, leaves every other byte unchanged.
Used by the server's classifier. -/
def tolowerC (c : Nat) : Nat :=
  if 65 ≤ c ∧ c ≤ 90 then c + 32 else c

/-- Case fold used by the client's classifier:
`if (c >= 'A' && c <= 'Z') c = c - 'A' + 'a';`. -/
def foldAZ (c : Nat) : Nat :=
  if 65 ≤ c ∧ c ≤ 90 then c - 65 + 97 else c

/-- Byte encoding of a Lean string literal, for stating facts about the
protocol's literal messages. -/
def bytesOf (s : String) : List Nat :=
  s.toList.map Char.toNat

/-- Bytes of the token `"quit"`. -/
def quitBytes : List Nat := [113, 117, 105, 116]

/-- Bytes of the token `"exit"`. -/
def exitBytes : List Nat := [101, 120, 105, 116]

namespace Server

/-- Token-copy loop of the server's `is_quit_cmd` (server.c:44-48): copies at
most 7 bytes (`i < sizeof(tmp) - 1`), stopping at NUL or whitespace,
lower-casing each byte with `tolower`. -/
def takeToken : Nat → List Nat → List Nat
  | 0, _ => []
  | _ + 1, [] => []
  | fuel + 1, c :: rest =>
    if c == 0 then []
    else if isWs c then []
    else tolowerC c :: takeToken fuel rest

/-- Server command classifier `is_quit_cmd` (server.c:38-51): skip leading
whitespace, return false on end of string, otherwise copy the first token
(at most 7 bytes, lower-cased) and compare it to `"quit"` and `"exit"` with
`strcmp`. -/
def is_quit_cmd (s : List Nat) : Bool :=
  match stripWs s with
  | [] => false
  | c :: rest =>
    if c == 0 then false
    else
      let tok := takeToken 7 (c :: rest)
      (tok == quitBytes) || (tok == exitBytes)

end Server

namespace Client

/-- Token-copy loop of the client's `is_quit_cmd` (client.c:33-38): identical
to the server's except that case folding is done by explicit arithmetic on
the range `'A'..'Z'`. -/
def takeToken : Nat → List Nat → List Nat
  | 0, _ => []
  | _ + 1, [] => []
  | fuel + 1, c :: rest =>
    if c == 0 then []
    else if isWs c then []
    else foldAZ c :: takeToken fuel rest

/-- Client command classifier `is_quit_cmd` (client.c:27-41). -/
def is_quit_cmd (s : List Nat) : Bool :=
  match stripWs s with
  | [] => false
  | c :: rest =>
    if c == 0 then false
    else
      let tok := takeToken 7 (c :: rest)
      (tok == quitBytes) || (tok == exitBytes)

end Client

/-- Specification-level first token, following the spec's words: after
stripping leading whitespace, the first whitespace-delimited token, examining
at most 7 characters, case-folded. -/
def specFirstToken (s : List Nat) : List Nat :=
  (((s.dropWhile isWs).takeWhile (fun c => !isWs c)).take 7).map tolowerC

/-- Specification-level classifier, following the spec's words: true iff the
first token equals exactly `"quit"` or `"exit"`. -/
def specIsQuit (s : List Nat) : Bool :=
  (specFirstToken s == quitBytes) || (specFirstToken s == exitBytes)

/-- The whitespace-skip loop computes `List.dropWhile isWs`. -/
theorem stripWs_eq_dropWhile (s : List Nat) : stripWs s = s.dropWhile isWs := by
  induction s with
  | nil => rfl
  | cons c rest ih =>
    simp only [stripWs, List.dropWhile]
    by_cases h : isWs c
    · simp [h, ih]
    · simp [h]

/-- On NUL-free input the server's token loop computes the case-folded,
7-truncated first whitespace-delimited token. -/
theorem takeToken_eq_spec (fuel : Nat) (l : List Nat) (h0 : ∀ c ∈ l, c ≠ 0) :
    Server.takeToken fuel l = ((l.takeWhile (fun c => !isWs c)).take fuel).map tolowerC := by
  induction l generalizing fuel with
  | nil => cases fuel <;> rfl
  | cons c rest ih =>
    cases fuel with
    | zero => rfl
    | succ fuel =>
      have hc : c ≠ 0 := h0 c (List.mem_cons_self c rest)
      have hc' : (c == 0) = false := by simpa using hc
      simp only [Server.takeToken, hc', if_false, List.takeWhile]
      by_cases hw : isWs c
      · simp [hw]
      · simp only [hw, if_false, Bool.not_false, List.take, List.map]
        rw [ih fuel (fun d hd => h0 d (List.mem_cons_of_mem c hd))]
        simp [hw]

/-- Stripping an all-whitespace string yields the empty string. -/
theorem stripWs_eq_nil_of_all_ws (s : List Nat) (h : ∀ c ∈ s, isWs c = true) :
    stripWs s = [] := by
  induction s with
  | nil => rfl
  | cons c rest ih =>
    have hc := h c (List.mem_cons_self c rest)
    simp only [stripWs, hc, if_true]
    exact ih (fun d hd => h d (List.mem_cons_of_mem c hd))

/-- On NUL-free input the server classifier agrees with the spec-level
classifier. -/
theorem server_eq_specIsQuit (s : List Nat) (h0 : ∀ c ∈ s, c ≠ 0) :
    Server.is_quit_cmd s = specIsQuit s := by
  have hsub : (s.dropWhile isWs).Sublist s := List.dropWhile_sublist isWs
  have h0t : ∀ c ∈ s.dropWhile isWs, c ≠ 0 := fun c hc => h0 c (hsub.mem hc)
  unfold Server.is_quit_cmd specIsQuit specFirstToken
  rw [stripWs_eq_dropWhile]
  cases ht : s.dropWhile isWs with
  | nil => simp [quitBytes, exitBytes]
  | cons c rest =>
    have hc : c ≠ 0 := by
      refine h0t c ?_
      rw [ht]; exact List.mem_cons_self c rest
    have hc' : (c == 0) = false := by simpa using hc
    rw [ht] at h0t
    simp only [hc', Bool.false_eq_true, if_false]
    rw [takeToken_eq_spec 7 (c :: rest) h0t]

/--
C1: the server's command classifier `is_quit_cmd` returns true iff, after
stripping leading spaces, tabs, carriage returns and newlines, the first
whitespace-delimited token, case-folded and examining at most 7 characters,
equals exactly "quit" or "exit"; "QUIT", "  exit\n" and "Quit now" classify
as termination, "quitter" and "exiting" do not, and empty or all-whitespace
input yields false.
-/
theorem is_quit_cmd_meets_spec :
    (∀ s : List Nat, (∀ c ∈ s, c ≠ 0) →
      (Server.is_quit_cmd s = true ↔ specIsQuit s = true))
    ∧ Server.is_quit_cmd (bytesOf "QUIT") = true
    ∧ Server.is_quit_cmd (bytesOf "  exit\n") = true
    ∧ Server.is_quit_cmd (bytesOf "Quit now") = true
    ∧ Server.is_quit_cmd (bytesOf "quitter") = false
    ∧ Server.is_quit_cmd (bytesOf "exiting") = false
    ∧ Server.is_quit_cmd (bytesOf "") = false
    ∧ (∀ s : List Nat, (∀ c ∈ s, isWs c = true) → Server.is_quit_cmd s = false) := by
  refine ⟨fun s h0 => by rw [server_eq_specIsQuit s h0],
    by decide, by decide, by decide, by decide, by decide, by decide,
    fun s h => ?_⟩
  unfold Server.is_quit_cmd
  rw [stripWs_eq_nil_of_all_ws s h]

/-- Closed instance of `is_quit_cmd_meets_spec`, discharging its hypotheses at
the concrete inputs "quit\n" (NUL-free) and " \t" (all-whitespace). -/
theorem is_quit_cmd_meets_spec_witness :
    (Server.is_quit_cmd [113, 117, 105, 116, 10] = true ↔
      specIsQuit [113, 117, 105, 116, 10] = true)
    ∧ Server.is_quit_cmd [32, 9] = false :=
  ⟨is_quit_cmd_meets_spec.1 [113, 117, 105, 116, 10] (by decide),
   is_quit_cmd_meets_spec.2.2.2.2.2.2.2 [32, 9] (by decide)⟩

/-- The two case folds agree on every byte. -/
theorem foldAZ_eq_tolowerC (c : Nat) : foldAZ c = tolowerC c := by
  unfold foldAZ tolowerC
  by_cases h : 65 ≤ c ∧ c ≤ 90
  · rw [if_pos h, if_pos h]; omega
  · rw [if_neg h, if_neg h]

/-- The two token-copy loops agree on every input. -/
theorem client_takeToken_eq_server (fuel : Nat) (l : List Nat) :
    Client.takeToken fuel l = Server.takeToken fuel l := by
  induction l generalizing fuel with
  | nil => cases fuel <;> rfl
  | cons c rest ih =>
    cases fuel with
    | zero => rfl
    | succ fuel =>
      simp only [Client.takeToken, Server.takeToken, foldAZ_eq_tolowerC, ih fuel]

/--
C10: the server's classifier (case-folding with `tolower`) and the client's
independently implemented classifier (case-folding `'A'..'Z'` by arithmetic)
are extensionally equal: they return the same boolean on every NUL-terminated
byte string.
-/
theorem classifiers_extensionally_equal :
    ∀ s : List Nat, Server.is_quit_cmd s = Client.is_quit_cmd s := by
  intro s
  unfold Server.is_quit_cmd Client.is_quit_cmd
  cases stripWs s with
  | nil => rfl
  | cons c rest => simp only [client_takeToken_eq_server]

/-- Outcome of one underlying `write` call, as seen by `send_all`: `wrote n`
is a return value `n ≥ 0`; `eintr` is a return of `-1` with `errno == EINTR`;
`werror` is a return of `-1` with any other `errno`. -/
inductive WriteRes where
  | wrote (n : Nat)
  | eintr
  | werror
deriving DecidableEq, Repr

/-- The `send_all` primitive (server.c:53-65, and the identical copy at
client.c:43-55), run against a list of write outcomes: loop while
`sent < len`; on `EINTR` retry; on any other negative return, return `-1`;
on a zero-byte write, break out of the loop (and return `0`); otherwise add
the written count to `sent`.  Returns `none` when the outcome list is
exhausted with the loop still running, otherwise `some (return value, sent)`. -/
def send_all (len : Nat) : Nat → List WriteRes → Option (Int × Nat)
  | sent, [] => if sent < len then none else some (0, sent)
  | sent, e :: rest =>
    if sent < len then
      match e with
      | .eintr => send_all len sent rest
      | .werror => some (-1, sent)
      | .wrote 0 => some (0, sent)
      | .wrote (n + 1) => send_all len (sent + (n + 1)) rest
    else some (0, sent)

/-- When `send_all` returns `-1`, some write reported a hard error. -/
theorem send_all_fail_has_werror (len : Nat) (evs : List WriteRes) :
    ∀ sent s, send_all len sent evs = some (-1, s) → WriteRes.werror ∈ evs := by
  induction evs with
  | nil =>
    intro sent s h
    unfold send_all at h
    by_cases hlt : sent < len
    · simp [hlt] at h
    · simp [hlt] at h
  | cons e rest ih =>
    intro sent s h
    unfold send_all at h
    by_cases hlt : sent < len
    · simp only [hlt, if_true] at h
      match e with
      | .eintr => exact List.mem_cons_of_mem _ (ih sent s h)
      | .werror => exact List.mem_cons_self _ _
      | .wrote 0 => simp at h
      | .wrote (n + 1) => exact List.mem_cons_of_mem _ (ih (sent + (n + 1)) s h)
    · simp [hlt] at h

/-- When no write reports zero progress and `send_all` completes without a
hard error, it returns `0` and has written every byte. -/
theorem send_all_success_all_written (len : Nat) (evs : List WriteRes)
    (hz : ∀ e ∈ evs, e ≠ WriteRes.wrote 0) :
    ∀ sent r s, send_all len sent evs = some (r, s) → r ≠ -1 →
      r = 0 ∧ len ≤ s := by
  induction evs with
  | nil =>
    intro sent r s h _
    unfold send_all at h
    by_cases hlt : sent < len
    · simp [hlt] at h
    · simp only [hlt, if_false] at h
      obtain ⟨hr, hs⟩ := Prod.mk.injEq _ _ _ _ ▸ Option.some.injEq _ _ ▸ h
      exact ⟨hr.symm, hs ▸ Nat.le_of_not_lt hlt⟩
  | cons e rest ih =>
    intro sent r s h hne
    have hzr : ∀ x ∈ rest, x ≠ WriteRes.wrote 0 :=
      fun x hx => hz x (List.mem_cons_of_mem e hx)
    unfold send_all at h
    by_cases hlt : sent < len
    · simp only [hlt, if_true] at h
      match e with
      | .eintr => exact ih hzr sent r s h hne
      | .werror =>
        exfalso
        apply hne
        have := (Option.some.injEq _ _ ▸ h)
        exact (Prod.mk.injEq _ _ _ _ ▸ this).1.symm
      | .wrote 0 =>
        exact absurd rfl (hz (WriteRes.wrote 0) (List.mem_cons_self _ _))
      | .wrote (n + 1) => exact ih hzr (sent + (n + 1)) r s h hne
    · simp only [hlt, if_false] at h
      obtain ⟨hr, hs⟩ := Prod.mk.injEq _ _ _ _ ▸ Option.some.injEq _ _ ▸ h
      exact ⟨hr.symm, hs ▸ Nat.le_of_not_lt hlt⟩

/--
C4: `send_all` retries the underlying write on `EINTR`; it returns failure
(`-1`) exactly when a write reports a hard error; a zero-byte write makes it
stop and return success with a short write; and otherwise it returns success
only once every byte has been written (`len ≤ sent`).
-/
theorem send_all_meets_spec :
    (∀ len sent evs, sent < len →
      send_all len sent (WriteRes.eintr :: evs) = send_all len sent evs)
    ∧ (∀ len sent evs, sent < len →
      send_all len sent (WriteRes.werror :: evs) = some (-1, sent))
    ∧ (∀ len sent evs, sent < len →
      send_all len sent (WriteRes.wrote 0 :: evs) = some (0, sent))
    ∧ (∀ len evs sent s, send_all len sent evs = some (-1, s) →
      WriteRes.werror ∈ evs)
    ∧ (∀ len evs sent r s, (∀ e ∈ evs, e ≠ WriteRes.wrote 0) →
      send_all len sent evs = some (r, s) → r ≠ -1 → r = 0 ∧ len ≤ s) := by
  refine ⟨fun len sent evs h => ?_, fun len sent evs h => ?_,
    fun len sent evs h => ?_,
    fun len evs sent s h => send_all_fail_has_werror len evs sent s h,
    fun len evs sent r s hz h hne =>
      send_all_success_all_written len evs hz sent r s h hne⟩
  · rw [show send_all len sent (WriteRes.eintr :: evs) =
        if sent < len then send_all len sent evs else some ((0 : Int), sent) from rfl,
      if_pos h]
  · rw [show send_all len sent (WriteRes.werror :: evs) =
        if sent < len then some ((-1 : Int), sent) else some ((0 : Int), sent) from rfl,
      if_pos h]
  · rw [show send_all len sent (WriteRes.wrote 0 :: evs) =
        if sent < len then some ((0 : Int), sent) else some ((0 : Int), sent) from rfl,
      if_pos h]

/-- Closed instance of `send_all_meets_spec` at concrete inputs: a send of 3
bytes with outcomes `[EINTR, wrote 3]` equals one with `[wrote 3]`; a hard
error or a zero write at 0 bytes sent returns `(-1, 0)` and `(0, 0)`; a run
returning `-1` contains a hard error; a completed clean run wrote all bytes. -/
theorem send_all_meets_spec_witness :
    send_all 3 0 [WriteRes.eintr, WriteRes.wrote 3] = send_all 3 0 [WriteRes.wrote 3]
    ∧ send_all 3 0 [WriteRes.werror] = some (-1, 0)
    ∧ send_all 3 0 [WriteRes.wrote 0] = some (0, 0)
    ∧ WriteRes.werror ∈ [WriteRes.wrote 2, WriteRes.werror]
    ∧ ((0 : Int) = 0 ∧ (3 : Nat) ≤ 3) :=
  ⟨send_all_meets_spec.1 3 0 [WriteRes.wrote 3] (by decide),
   send_all_meets_spec.2.1 3 0 [] (by decide),
   send_all_meets_spec.2.2.1 3 0 [] (by decide),
   send_all_meets_spec.2.2.2.1 3 [WriteRes.wrote 2, WriteRes.werror] 0 2 (by decide),
   send_all_meets_spec.2.2.2.2 3 [WriteRes.wrote 2, WriteRes.wrote 1] 0 0 3
     (by decide) (by decide) (by decide)⟩

/-- Copying `src` over the front of `dst`, as `read` deposits received bytes
at the start of the buffer. -/
def writeBytes (dst src : List Nat) : List Nat :=
  src ++ dst.drop src.length

/-- Receive-buffer contents of one iteration of `handle_client_loop`, starting
from the buffer's previous contents `prev` (server.c:77-95): `memset` zeroes
the whole buffer, `read` deposits the `bs.length` received bytes at the
front, and `buffer[n] = '\0'` NUL-terminates at the reported length. -/
def iterBufferFrom (prev bs : List Nat) : List Nat :=
  (writeBytes (prev.map (fun _ => 0)) bs).set bs.length 0

/-- Receive-buffer contents as a function of the received bytes alone, for
the declared 256-byte buffer. -/
def iterBuffer (bs : List Nat) : List Nat :=
  iterBufferFrom (List.replicate 256 0) bs

/-- Zeroing a buffer with `memset` yields all-zero bytes of the same length. -/
theorem map_const_zero (l : List Nat) :
    l.map (fun _ => 0) = List.replicate l.length 0 := by
  induction l with
  | nil => rfl
  | cons c rest ih => simp [List.replicate, ih]

/-- Dropping from an all-zero buffer leaves an all-zero buffer. -/
theorem drop_replicate_zero (k : Nat) :
    ∀ n, (List.replicate n (0 : Nat)).drop k = List.replicate (n - k) 0 := by
  induction k with
  | zero => intro n; rfl
  | succ k ih =>
    intro n
    cases n with
    | zero => simp
    | succ n => simp [List.replicate, ih n]

/-- Writing the NUL terminator just past the received bytes is a no-op on a
zero-padded buffer. -/
theorem set_append_zero (bs : List Nat) (k : Nat) :
    (bs ++ List.replicate (k + 1) 0).set bs.length 0
      = bs ++ List.replicate (k + 1) 0 := by
  induction bs with
  | nil => simp [List.replicate]
  | cons c rest ih => simp [List.set, ih]

/-- Canonical form of the iteration buffer: the received bytes followed by
zero padding. -/
theorem iterBuffer_eq (bs : List Nat) (h : bs.length ≤ 255) :
    iterBuffer bs = bs ++ List.replicate (256 - bs.length) 0 := by
  obtain ⟨k, hk⟩ : ∃ k, 256 - bs.length = k + 1 := ⟨255 - bs.length, by omega⟩
  unfold iterBuffer iterBufferFrom writeBytes
  rw [map_const_zero, List.length_replicate, drop_replicate_zero, hk,
    set_append_zero]

/-- The iteration buffer depends only on the received bytes, never on the
buffer's previous contents. -/
theorem iterBufferFrom_eq (prev bs : List Nat) (hp : prev.length = 256) :
    iterBufferFrom prev bs = iterBuffer bs := by
  unfold iterBuffer iterBufferFrom
  rw [map_const_zero, map_const_zero, hp, List.length_replicate]

/-- Reading an element just past a list prefix finds the padding byte. -/
theorem getElem_append_cons (bs : List Nat) (t : List Nat) :
    (bs ++ 0 :: t)[bs.length]? = some 0 := by
  rw [List.getElem?_append_right (Nat.le_refl _)]
  simp

/-- Taking a list prefix of its own length from a concatenation recovers it. -/
theorem take_append_length (bs t : List Nat) :
    (bs ++ t).take bs.length = bs := by
  induction bs with
  | nil => rfl
  | cons c rest ih => simp [ih]

/-- The server's token loop ignores zero padding after the received bytes. -/
theorem takeToken_append_zeros (l : List Nat) (k : Nat) :
    ∀ fuel, Server.takeToken fuel (l ++ List.replicate k 0)
      = Server.takeToken fuel l := by
  induction l with
  | nil =>
    intro fuel
    cases fuel with
    | zero => rfl
    | succ fuel =>
      cases k with
      | zero => rfl
      | succ k => simp [List.replicate, Server.takeToken]
  | cons c rest ih =>
    intro fuel
    cases fuel with
    | zero => rfl
    | succ fuel => simp [Server.takeToken, ih fuel]

/-- The classifier is a function of the whitespace-stripped string. -/
theorem is_quit_cmd_congr (s t : List Nat) (h : stripWs s = stripWs t) :
    Server.is_quit_cmd s = Server.is_quit_cmd t := by
  unfold Server.is_quit_cmd
  rw [h]

/-- The classifier ignores zero padding after the received bytes. -/
theorem is_quit_cmd_append_zeros (bs : List Nat) (k : Nat) :
    Server.is_quit_cmd (bs ++ List.replicate k 0) = Server.is_quit_cmd bs := by
  induction bs with
  | nil =>
    cases k with
    | zero => rfl
    | succ k => simp [Server.is_quit_cmd, stripWs, isWs, List.replicate]
  | cons c rest ih =>
    by_cases hw : isWs c
    · have h1 : stripWs ((c :: rest) ++ List.replicate k 0)
          = stripWs (rest ++ List.replicate k 0) := by simp [stripWs, hw]
      have h2 : stripWs (c :: rest) = stripWs rest := by simp [stripWs, hw]
      rw [is_quit_cmd_congr _ _ h1, is_quit_cmd_congr _ _ h2, ih]
    · have h1 : stripWs ((c :: rest) ++ List.replicate k 0)
          = c :: (rest ++ List.replicate k 0) := by simp [stripWs, hw]
      have h2 : stripWs (c :: rest) = c :: rest := by simp [stripWs, hw]
      unfold Server.is_quit_cmd
      rw [h1, h2]
      by_cases hc : c = 0
      · simp [hc]
      · have hc' : (c == 0) = false := by simpa using hc
        simp only [hc', Bool.false_eq_true, if_false]
        rw [show c :: (rest ++ List.replicate k 0)
            = (c :: rest) ++ List.replicate k 0 from rfl,
          takeToken_append_zeros]

/-- Classifying the iteration buffer equals classifying the received bytes. -/
theorem is_quit_cmd_iterBuffer (bs : List Nat) (h : bs.length ≤ 255) :
    Server.is_quit_cmd (iterBuffer bs) = Server.is_quit_cmd bs := by
  rw [iterBuffer_eq bs h, is_quit_cmd_append_zeros]

/-- Outcome of one `read` on the connection, as seen by the session loop
(server.c:79-92): `data bs` a return of `bs.length > 0` bytes; `closed` a
return of `0`; `rerror` a negative return with `errno != EINTR`; `rintr` a
negative return with `errno == EINTR`. -/
inductive RecvRes where
  | data (bs : List Nat)
  | closed
  | rerror
  | rintr
deriving DecidableEq, Repr

/-- How `handle_client_loop` ended: `exitOk` means the loop broke out
normally, after which the child closes the connection endpoint and calls
`_exit(0)` (server.c:179-184); `fatal` means `die` ran (`perror` then
`exit(1)`), an abnormal termination that never reaches the close. -/
inductive SessionEnd where
  | exitOk
  | fatal
deriving DecidableEq, Repr

/-- Literal farewell message (server.c:106). -/
def byeMsg : List Nat := bytesOf "Bye.\n"

/-- Literal acknowledgement message (server.c:118). -/
def ackMsg : List Nat := bytesOf "I got your message\n"

/-- The per-connection session loop `handle_client_loop` (server.c:67-123),
run against one event per iteration: the read outcome paired with the result
of whichever `send_all` that iteration performs (`false` meaning `send_all`
returned `-1`).  Each iteration zeroes the buffer, reads, and on data
NUL-terminates and classifies the buffer; a quit command sends the farewell
and breaks whatever the send result; otherwise the acknowledgement is sent
and a failed send calls `die`.  Returns the messages handed to `send_all`, in
order, and how the loop ended (`none` when the event list is exhausted while
the session is still ACTIVE). -/
def handle_client_loop : List (RecvRes × Bool) → List (List Nat) × Option SessionEnd
  | [] => ([], none)
  | (RecvRes.rintr, _) :: rest => handle_client_loop rest
  | (RecvRes.rerror, _) :: _ => ([], some SessionEnd.fatal)
  | (RecvRes.closed, _) :: _ => ([], some SessionEnd.exitOk)
  | (RecvRes.data bs, sendOk) :: rest =>
    if Server.is_quit_cmd (iterBuffer bs) then
      ([byeMsg], some SessionEnd.exitOk)
    else if sendOk then
      let r := handle_client_loop rest
      (ackMsg :: r.1, r.2)
    else ([ackMsg], some SessionEnd.fatal)

/-- Observable child-process outcome for each way the session loop can end
(server.c:179-184 and `die`): whether the child explicitly closed its
connection endpoint, and its exit status. -/
def childOutcome : SessionEnd → Bool × Nat
  | SessionEnd.exitOk => (true, 0)
  | SessionEnd.fatal => (false, 1)

/--
C2: for every received payload of 1 to 255 bytes that the classifier does not
classify as a termination command, the session loop sends exactly the literal
bytes "I got your message\n" as its reply and stays ACTIVE (continues as the
loop over the remaining events); a send failure of this acknowledgement is
fatal for the session (the execution context terminates abnormally, exit
status 1, without closing its endpoint itself).
-/
theorem ack_on_noncommand_payload (bs : List Nat) (rest : List (RecvRes × Bool))
    (_h1 : 1 ≤ bs.length) (h2 : bs.length ≤ 255)
    (hq : Server.is_quit_cmd bs = false) :
    handle_client_loop ((RecvRes.data bs, true) :: rest)
      = (ackMsg :: (handle_client_loop rest).1, (handle_client_loop rest).2)
    ∧ handle_client_loop ((RecvRes.data bs, false) :: rest)
      = ([ackMsg], some SessionEnd.fatal)
    ∧ childOutcome SessionEnd.fatal = (false, 1)
    ∧ ackMsg = bytesOf "I got your message\n" := by
  have hq' : Server.is_quit_cmd (iterBuffer bs) = false := by
    rw [is_quit_cmd_iterBuffer bs h2, hq]
  refine ⟨?_, ?_, rfl, rfl⟩
  · rw [show handle_client_loop ((RecvRes.data bs, true) :: rest)
        = if Server.is_quit_cmd (iterBuffer bs) then
            ([byeMsg], some SessionEnd.exitOk)
          else (ackMsg :: (handle_client_loop rest).1, (handle_client_loop rest).2)
      from rfl, hq']
    simp
  · rw [show handle_client_loop ((RecvRes.data bs, false) :: rest)
        = if Server.is_quit_cmd (iterBuffer bs) then
            ([byeMsg], some SessionEnd.exitOk)
          else ([ackMsg], some SessionEnd.fatal)
      from rfl, hq']
    simp

/-- Closed instance of `ack_on_noncommand_payload` at the concrete payload
"hi\n". -/
theorem ack_on_noncommand_payload_witness :
    handle_client_loop ((RecvRes.data [104, 105, 10], true) :: [])
      = (ackMsg :: (handle_client_loop []).1, (handle_client_loop []).2)
    ∧ handle_client_loop ((RecvRes.data [104, 105, 10], false) :: [])
      = ([ackMsg], some SessionEnd.fatal)
    ∧ childOutcome SessionEnd.fatal = (false, 1)
    ∧ ackMsg = bytesOf "I got your message\n" :=
  ack_on_noncommand_payload [104, 105, 10] [] (by decide) (by decide) (by decide)

/--
C3: whenever the received bytes are classified as a termination command, the
session loop sends exactly the literal bytes "Bye.\n" and ends with
`exitOk` regardless of whether that send succeeds (`sendOk` is universally
quantified), after which the child closes its connection endpoint and exits
with status 0.
-/
theorem farewell_on_command (bs : List Nat) (rest : List (RecvRes × Bool))
    (sendOk : Bool) (h2 : bs.length ≤ 255)
    (hq : Server.is_quit_cmd bs = true) :
    handle_client_loop ((RecvRes.data bs, sendOk) :: rest)
      = ([byeMsg], some SessionEnd.exitOk)
    ∧ childOutcome SessionEnd.exitOk = (true, 0)
    ∧ byeMsg = bytesOf "Bye.\n" := by
  have hq' : Server.is_quit_cmd (iterBuffer bs) = true := by
    rw [is_quit_cmd_iterBuffer bs h2, hq]
  refine ⟨?_, rfl, rfl⟩
  cases sendOk with
  | true =>
    rw [show handle_client_loop ((RecvRes.data bs, true) :: rest)
        = if Server.is_quit_cmd (iterBuffer bs) then
            ([byeMsg], some SessionEnd.exitOk)
          else (ackMsg :: (handle_client_loop rest).1, (handle_client_loop rest).2)
      from rfl, hq']
    simp
  | false =>
    rw [show handle_client_loop ((RecvRes.data bs, false) :: rest)
        = if Server.is_quit_cmd (iterBuffer bs) then
            ([byeMsg], some SessionEnd.exitOk)
          else ([ackMsg], some SessionEnd.fatal)
      from rfl, hq']
    simp

/-- Closed instance of `farewell_on_command` at the concrete payload
"quit\n", with a failing farewell send. -/
theorem farewell_on_command_witness :
    handle_client_loop ((RecvRes.data [113, 117, 105, 116, 10], false) :: [])
      = ([byeMsg], some SessionEnd.exitOk)
    ∧ childOutcome SessionEnd.exitOk = (true, 0)
    ∧ byeMsg = bytesOf "Bye.\n" :=
  farewell_on_command [113, 117, 105, 116, 10] [] false (by decide) (by decide)

/--
C5: a receive of 0 bytes makes the session loop end with `exitOk` without
sending any reply bytes, after which the child closes its connection endpoint
and exits with status 0 — peer-initiated close is a normal, successful end of
session.
-/
theorem peer_close_clean :
    ∀ (rest : List (RecvRes × Bool)) (sendOk : Bool),
      handle_client_loop ((RecvRes.closed, sendOk) :: rest) = ([], some SessionEnd.exitOk)
      ∧ childOutcome SessionEnd.exitOk = (true, 0) :=
  fun _ _ => ⟨rfl, rfl⟩

/--
C9: in every iteration of the session loop the 256-byte receive buffer is
fully reset before the receive, so the buffer's contents — and hence what is
classified and printed — depend only on the current received bytes `bs`; with
at most 255 bytes read, the buffer keeps its declared length 256, the writes
`buffer[n] = 0` and the access `buffer[n-1]` are in bounds, the buffer holds
exactly the received bytes followed by the NUL at index `n`, and
classification of the buffer equals classification of the received bytes.
-/
theorem buffer_discipline (prev bs : List Nat)
    (hp : prev.length = 256) (h2 : bs.length ≤ 255) :
    iterBufferFrom prev bs = iterBuffer bs
    ∧ (iterBuffer bs).length = 256
    ∧ bs.length < (iterBuffer bs).length
    ∧ bs.length - 1 < (iterBuffer bs).length
    ∧ (iterBuffer bs).take bs.length = bs
    ∧ (iterBuffer bs)[bs.length]? = some 0
    ∧ Server.is_quit_cmd (iterBuffer bs) = Server.is_quit_cmd bs := by
  obtain ⟨k, hk⟩ : ∃ k, 256 - bs.length = k + 1 := ⟨255 - bs.length, by omega⟩
  have hcanon := iterBuffer_eq bs h2
  have hlen : (iterBuffer bs).length = 256 := by
    rw [hcanon]
    simp only [List.length_append, List.length_replicate]
    omega
  refine ⟨iterBufferFrom_eq prev bs hp, hlen, by omega, by omega, ?_, ?_,
    is_quit_cmd_iterBuffer bs h2⟩
  · rw [hcanon, take_append_length]
  · rw [hcanon, hk, List.replicate_succ, getElem_append_cons]

/-- Closed instance of `buffer_discipline` at a 256-byte previous buffer of
stale bytes 7 and the concrete payload "quit". -/
theorem buffer_discipline_witness :
    iterBufferFrom (List.replicate 256 7) [113, 117, 105, 116] = iterBuffer [113, 117, 105, 116]
    ∧ (iterBuffer [113, 117, 105, 116]).length = 256
    ∧ (4 : Nat) < (iterBuffer [113, 117, 105, 116]).length
    ∧ (4 : Nat) - 1 < (iterBuffer [113, 117, 105, 116]).length
    ∧ (iterBuffer [113, 117, 105, 116]).take 4 = [113, 117, 105, 116]
    ∧ (iterBuffer [113, 117, 105, 116])[(4 : Nat)]? = some 0
    ∧ Server.is_quit_cmd (iterBuffer [113, 117, 105, 116])
      = Server.is_quit_cmd [113, 117, 105, 116] :=
  buffer_discipline (List.replicate 256 7) [113, 117, 105, 116]
    (by rw [List.length_replicate]) (by decide)

/-- Outcome of `recv_some` (client.c:57-63): the first non-`EINTR` read
outcome, transparently retrying on `EINTR`; `none` when the outcome list is
exhausted with the retry loop still running. -/
def recv_some : List RecvRes → Option RecvRes
  | [] => none
  | RecvRes.rintr :: rest => recv_some rest
  | r :: _ => some r

/-- Notice printed when the server closes the connection (client.c:119). -/
def noticeMsg : List Nat := bytesOf "(server closed connection)\n"

/-- What the client prints for a received reply of `bs.length ≥ 1` bytes
(client.c:122-124): `printf("%s", reply)` prints the reply up to its first
NUL, and a newline is appended when `reply[n-1]` is not already a newline. -/
def printedReply (bs : List Nat) : List Nat :=
  if bs.getLast? == some 10 then bs.takeWhile (fun c => !(c == 0))
  else bs.takeWhile (fun c => !(c == 0)) ++ [10]

/-- One iteration's external events for the client driver loop
(client.c:101-129): either `fgets` returned NULL (end of input), or a line
was read and sent (`sendOk = false` meaning `send_all` returned `-1`) and the
reply was read with the given sequence of read outcomes. -/
inductive ClientEv where
  | eof
  | line (input : List Nat) (sendOk : Bool) (reads : List RecvRes)

/-- The client driver loop (client.c:101-129) run against a list of events,
one per iteration: prompt and read a line (end of input breaks out, exit 0);
send it with `send_all` (failure calls `die`, exit 1); receive one reply
chunk with `recv_some` (a hard error calls `die`; zero bytes prints a notice
and breaks out); print the reply; then break out iff the original input line
is a quit command.  Returns the chunks printed for the server, and the exit
status (`none` when the events are exhausted with the loop running). -/
def client_loop : List ClientEv → List (List Nat) × Option Nat
  | [] => ([], none)
  | ClientEv.eof :: _ => ([], some 0)
  | ClientEv.line _ false _ :: _ => ([], some 1)
  | ClientEv.line inp true reads :: rest =>
    match recv_some reads with
    | none => ([], none)
    | some RecvRes.rerror => ([], some 1)
    | some RecvRes.rintr => ([], some 1)
    | some RecvRes.closed => ([noticeMsg], some 0)
    | some (RecvRes.data bs) =>
      if Client.is_quit_cmd inp then ([printedReply bs], some 0)
      else
        let r := client_loop rest
        (printedReply bs :: r.1, r.2)

/--
C6: in each iteration of the client driver loop, after sending an input line
and printing the server's non-empty reply, the client exits (successfully,
closing the connection) iff the original input line — not the reply — is
classified as a termination command, independent of the reply's content `bs`;
a zero-length reply instead prints a notice and exits before that check,
independent of the input's classification.
-/
theorem client_exits_iff_input_quit (inp bs : List Nat) (reads : List RecvRes)
    (rest : List ClientEv) (_h1 : 1 ≤ bs.length) :
    client_loop (ClientEv.line inp true (RecvRes.data bs :: reads) :: rest)
      = (if Client.is_quit_cmd inp then ([printedReply bs], some 0)
         else (printedReply bs :: (client_loop rest).1, (client_loop rest).2))
    ∧ client_loop (ClientEv.line inp true (RecvRes.closed :: reads) :: rest)
      = ([noticeMsg], some 0) := by
  constructor
  · by_cases hq : Client.is_quit_cmd inp
    · simp only [client_loop, recv_some, hq, if_true]
    · simp only [client_loop, recv_some, hq, Bool.false_eq_true, if_false]
  · rfl

/-- Closed instance of `client_exits_iff_input_quit` at the input "exit\n"
and the reply "Bye.\n". -/
theorem client_exits_iff_input_quit_witness :
    client_loop (ClientEv.line [101, 120, 105, 116, 10] true
        (RecvRes.data [66, 121, 101, 46, 10] :: []) :: [])
      = (if Client.is_quit_cmd [101, 120, 105, 116, 10] then
          ([printedReply [66, 121, 101, 46, 10]], some 0)
         else (printedReply [66, 121, 101, 46, 10] :: (client_loop []).1,
          (client_loop []).2))
    ∧ client_loop (ClientEv.line [101, 120, 105, 116, 10] true
        (RecvRes.closed :: []) :: []) = ([noticeMsg], some 0) :=
  client_exits_iff_input_quit [101, 120, 105, 116, 10] [66, 121, 101, 46, 10]
    [] [] (by decide)

/-- Result of one `waitpid(-1, NULL, WNOHANG)` call (server.c:33) against a
process table with `z` completed-but-unreaped children and `running`
still-running children: a positive pid (modelled as 1) with one zombie
reclaimed when any zombie exists; an immediate 0 — rather than blocking —
when children are still running but none has completed; `-1` (no children
left) otherwise. -/
def waitpid_wnohang (z running : Nat) : Int × Nat :=
  if 0 < z then (1, z - 1)
  else if 0 < running then (0, z) else (-1, z)

/-- The `SIGCHLD` handler `reap_children` (server.c:31-36): repeat the
non-blocking `waitpid` while it reports a reaped child.  Returns the number
of completed-but-unreaped children remaining. -/
def reap_children (running : Nat) (z : Nat) : Nat :=
  if _hw : 0 < (waitpid_wnohang z running).1 then
    reap_children running (waitpid_wnohang z running).2
  else (waitpid_wnohang z running).2
termination_by z
decreasing_by
  simp only [waitpid_wnohang] at _hw ⊢
  by_cases hz : 0 < z
  · simp only [hz, if_true]
    omega
  · simp only [hz, if_false] at _hw
    by_cases hr : 0 < running
    · simp [hr] at _hw
    · simp [hr] at _hw

/-- With no zombies left, the handler's loop exits at once. -/
theorem reap_children_zero (running : Nat) : reap_children running 0 = 0 := by
  rw [reap_children]
  by_cases hr : 0 < running
  · simp [waitpid_wnohang, hr]
  · simp [waitpid_wnohang, hr]

/-- With a zombie present, one loop iteration reaps exactly one child. -/
theorem reap_children_succ (running z : Nat) (hz : 0 < z) :
    reap_children running z = reap_children running (z - 1) := by
  rw [reap_children]
  simp [waitpid_wnohang, hz]

/--
C7: every single invocation of the `SIGCHLD` reaper leaves the set of
completed-but-unreaped execution contexts empty, whatever its size `z` —
even a burst of near-simultaneous completions — and never blocks waiting on
a still-running context: with `running` live children and no zombie, the
non-blocking `waitpid` returns 0 immediately and the loop exits.
-/
theorem reaper_drains_all_zombies :
    (∀ z running, reap_children running z = 0)
    ∧ (∀ running, 0 < running → waitpid_wnohang 0 running = (0, 0)) := by
  constructor
  · intro z running
    induction z with
    | zero => exact reap_children_zero running
    | succ z ih =>
      rw [reap_children_succ running (z + 1) (Nat.succ_pos z)]
      simpa using ih
  · intro running hr
    simp [waitpid_wnohang, hr]

/-- Closed instance of `reaper_drains_all_zombies`, with 2 running children
and no zombie. -/
theorem reaper_drains_all_zombies_witness :
    reap_children 2 5 = 0 ∧ waitpid_wnohang 0 2 = (0, 0) :=
  ⟨reaper_drains_all_zombies.1 5 2,
   reaper_drains_all_zombies.2 2 (by decide)⟩

/-- Result of `fork()` as seen by the acceptor (server.c:172): a negative
return (failure) or a positive child pid in the parent. -/
inductive ForkRes where
  | ffail
  | fparent
deriving DecidableEq, Repr

/-- Closing a descriptor removes it from a set of open descriptors. -/
def closeFd (fds : List Nat) (fd : Nat) : List Nat :=
  fds.filter (fun x => x != fd)

/-- Error message logged when `fork` fails (server.c:174). -/
def forkErrMsg : List Nat := bytesOf "ERROR on fork"

/-- What the acceptor ends an iteration with: its open descriptors, whether
it loops back to `accept`, whether it waited on the spawned session, and the
errors it logged. -/
structure AcceptorStep where
  fds : List Nat
  continuesLoop : Bool
  waitsForChild : Bool
  logs : List (List Nat)
deriving DecidableEq, Repr

/-- One iteration of the accept loop after a successful `accept`
(server.c:166-187), from the acceptor's (parent's) perspective: `fds` are the
descriptors it held before the accept (the listening socket among them) and
`newsockfd` the freshly accepted per-connection endpoint.  On fork failure,
`perror` then `close(newsockfd)` then `continue`; on fork success the parent
runs no wait, closes `newsockfd`, and falls to the end of the loop body. -/
def acceptIteration (fds : List Nat) (newsockfd : Nat) (fork : ForkRes) :
    AcceptorStep :=
  match fork with
  | ForkRes.ffail =>
    { fds := closeFd (newsockfd :: fds) newsockfd, continuesLoop := true,
      waitsForChild := false, logs := [forkErrMsg] }
  | ForkRes.fparent =>
    { fds := closeFd (newsockfd :: fds) newsockfd, continuesLoop := true,
      waitsForChild := false, logs := [] }

/-- Closing a freshly added descriptor restores the previous descriptor
set. -/
theorem closeFd_cons_self (fds : List Nat) (fd : Nat) (h : fd ∉ fds) :
    closeFd (fd :: fds) fd = fds := by
  unfold closeFd
  rw [List.filter_cons_of_neg (by simp)]
  apply List.filter_eq_self.mpr
  intro x hx
  simp only [bne_iff_ne, ne_eq]
  exact fun hxe => h (hxe ▸ hx)

/--
C8: in every iteration of the accept loop the acceptor relinquishes its copy
of the accepted per-connection endpoint and continues accepting: for both
fork outcomes it ends the iteration holding exactly the descriptors it held
before the accept (the new endpoint closed), loops back to `accept`, and
never waits on the session; on fork failure the error is logged and that one
connection dropped (spawn failure is non-fatal).
-/
theorem acceptor_releases_endpoint (fds : List Nat) (newsockfd : Nat)
    (fork : ForkRes) (hnew : newsockfd ∉ fds) :
    (acceptIteration fds newsockfd fork).fds = fds
    ∧ newsockfd ∉ (acceptIteration fds newsockfd fork).fds
    ∧ (acceptIteration fds newsockfd fork).continuesLoop = true
    ∧ (acceptIteration fds newsockfd fork).waitsForChild = false
    ∧ (acceptIteration fds newsockfd fork).logs
        = (if fork = ForkRes.ffail then [forkErrMsg] else []) := by
  have hclose := closeFd_cons_self fds newsockfd hnew
  cases fork with
  | ffail =>
    refine ⟨hclose, ?_, rfl, rfl, rfl⟩
    show newsockfd ∉ closeFd (newsockfd :: fds) newsockfd
    rw [hclose]
    exact hnew
  | fparent =>
    refine ⟨hclose, ?_, rfl, rfl, rfl⟩
    show newsockfd ∉ closeFd (newsockfd :: fds) newsockfd
    rw [hclose]
    exact hnew

/-- Closed instance of `acceptor_releases_endpoint`: listening socket 3,
accepted endpoint 4, under both fork outcomes. -/
theorem acceptor_releases_endpoint_witness :
    ((acceptIteration [3] 4 ForkRes.fparent).fds = [3]
      ∧ 4 ∉ (acceptIteration [3] 4 ForkRes.fparent).fds
      ∧ (acceptIteration [3] 4 ForkRes.fparent).continuesLoop = true
      ∧ (acceptIteration [3] 4 ForkRes.fparent).waitsForChild = false
      ∧ (acceptIteration [3] 4 ForkRes.fparent).logs
          = (if ForkRes.fparent = ForkRes.ffail then [forkErrMsg] else []))
    ∧ (acceptIteration [3] 4 ForkRes.ffail).logs
        = (if ForkRes.ffail = ForkRes.ffail then [forkErrMsg] else []) :=
  ⟨acceptor_releases_endpoint [3] 4 ForkRes.fparent (by decide),
   (acceptor_releases_endpoint [3] 4 ForkRes.ffail (by decide)).2.2.2.2⟩

end TcpEcho
